import Mathlib

/-!
Verification of the AI-Code-Review-Agent pipeline
(src/scripts/ai_code_review.py) against its specification.

The Python source is embedded shallowly:

* Python `str` values become Lean `String`; the handful of string methods
  the script uses (`startswith`, `endswith`, `in`, `split`) are realised
  as structurally recursive functions over the underlying character lists,
  matching Python semantics.
* The configuration class `ReviewConfig` becomes a plain structure.
* Network calls (GitHub API, LLM endpoint) are external collaborators:
  each call site receives its outcome as an explicit parameter
  (a status/payload value, or a function from attempt number to outcome).
* `LLMAPIError` propagation becomes the `Except` monad.
-/

namespace AICodeReview

/-! ### Python string primitives -/

/-- Whether the second character list begins with the first
(Python `str.startswith` on the underlying characters). -/
def startsWithChars : List Char → List Char → Bool
  | [], _ => true
  | _ :: _, [] => false
  | a :: as, b :: bs => a == b && startsWithChars as bs

/-- Python `s.startswith(pat)`. -/
def strStartsWith (s pat : String) : Bool :=
  startsWithChars pat.data s.data

/-- Python `s.endswith(pat)`. -/
def strEndsWith (s pat : String) : Bool :=
  startsWithChars pat.data.reverse s.data.reverse

/-- Whether `sub` occurs as a contiguous run inside `l`. -/
def containsChars (sub : List Char) : List Char → Bool
  | [] => startsWithChars sub []
  | c :: cs => startsWithChars sub (c :: cs) || containsChars sub cs

/-- Python `pat in s` (substring containment). -/
def strContains (s pat : String) : Bool :=
  containsChars pat.data s.data

/-- Helper for `pySplitLines`: accumulates the current line (reversed). -/
def pySplitLinesAux : List Char → List Char → List String
  | acc, [] => [⟨acc.reverse⟩]
  | acc, c :: cs =>
    if c = '\n' then ⟨acc.reverse⟩ :: pySplitLinesAux [] cs
    else pySplitLinesAux (c :: acc) cs

/-- Python `s.split(chr(10))`: splits on every newline; a trailing newline
yields a final empty line, and the empty string yields one empty line. -/
def pySplitLines (s : String) : List String :=
  pySplitLinesAux [] s.data

/-- The suffix of `l` after the last occurrence of `sep`, if `sep` occurs.
For a separator that cannot overlap itself (such as the three characters
of the diff marker path token used below), this equals the last component
of the Python `l.split(sep)`. -/
def afterLast (sep : List Char) : List Char → Option (List Char)
  | [] => none
  | c :: cs =>
    match afterLast sep cs with
    | some r => some r
    | none =>
      if startsWithChars sep (c :: cs) then some (List.drop sep.length (c :: cs))
      else none

/-- Python `s[:n]` for a non-negative `n`. -/
def pyTakeStr (n : Nat) (s : String) : String :=
  ⟨s.data.take n⟩

/-! ### Data model (section 3 of the spec) -/

/-- One entry of the files list of a commit payload:
path plus change counts. -/
structure FileChange where
  filename : String
  additions : Nat
  deletions : Nat
deriving DecidableEq

/-- The commit metadata fields the script reads from the GitHub payload. -/
structure CommitInfo where
  parents : List String
  files : List FileChange
  authorName : String
  message : String
  authorDate : String
deriving DecidableEq

/-- The configuration constants of `class ReviewConfig`
(schema-validated before use, per the spec). -/
structure ReviewCfg where
  maxDiffSize : Nat
  largeDiffThreshold : Nat
  chunkMaxTokens : Nat
  maxFilesDetail : Nat
  overviewMaxTokens : Nat
  responseLanguage : String
  ignoredExtensions : List String
  ignoredPaths : List String
deriving DecidableEq

/-- The two review strategies of the Review Strategist. -/
inductive ReviewStrategy
  | Full
  | Chunked
deriving DecidableEq

/-- Strategy selection in `review_single_commit`:
`if len(diff_content) > ReviewConfig.LARGE_DIFF_THRESHOLD` use the chunked
analysis, otherwise the full analysis. -/
def selectStrategy (cfg : ReviewCfg) (diff : String) : ReviewStrategy :=
  if diff.length > cfg.largeDiffThreshold then .Chunked else .Full

/-! ### Review-Skip Policy (`should_skip_review`) -/

/-- The per-file test of the skip loop: the path ends with a configured
ignored extension, or contains a configured ignored path substring. -/
def fileIsIgnored (cfg : ReviewCfg) (filename : String) : Bool :=
  cfg.ignoredExtensions.any (fun ext => strEndsWith filename ext) ||
  cfg.ignoredPaths.any (fun pat => strContains filename pat)

/-- The `for file in files` loop of `should_skip_review`: `continue` on a
matching extension or path, `return False` on the first file matching
neither, `return True` when the loop finishes. -/
def onlyIgnoredFiles (cfg : ReviewCfg) : List FileChange → Bool
  | [] => true
  | fc :: rest =>
    if cfg.ignoredExtensions.any (fun ext => strEndsWith fc.filename ext) then
      onlyIgnoredFiles cfg rest
    else if cfg.ignoredPaths.any (fun pat => strContains fc.filename pat) then
      onlyIgnoredFiles cfg rest
    else
      false

/-- `should_skip_review`: skip merge commits (more than one parent)
unconditionally; otherwise skip iff every changed file is ignored. -/
def shouldSkipReview (cfg : ReviewCfg) (info : CommitInfo) : Bool :=
  if info.parents.length > 1 then true
  else onlyIgnoredFiles cfg info.files

/-! ### Dedup Checker (`has_been_reviewed`) -/

/-- Outcome of the issue-search call: an HTTP response whose JSON carries
`total_count`, or a raised exception (transport error). -/
inductive SearchOutcome
  | response (status : Nat) (totalCount : Nat)
  | transportError (msg : String)
deriving DecidableEq

/-- `has_been_reviewed`: on a 200 response, already-reviewed iff
`total_count > 0`; any other status or an exception returns `False`
(fail-open) after logging a warning. -/
def hasBeenReviewed (r : SearchOutcome) : Bool :=
  match r with
  | .response status totalCount =>
    if status == 200 then decide (0 < totalCount) else false
  | .transportError _ => false

/-! ### Publisher (`create_review_issue`)

The issue-creation POST of attempt `i` is abstracted as `o i`, classifying
the observable outcome the way the source branches on it: status 201
(created), status 403 (forbidden), any other status, or a raised
exception. The observable effects of the call are collected in
`PublishResult`: the boolean handed back to the caller, whether the
delimited console dump of the full report was printed, and the argument
of every `time.sleep` executed before a retry, in order. -/

/-- Outcome of one issue-creation attempt, as classified by the source. -/
inductive AttemptOutcome
  | created
  | forbidden
  | httpOther
  | exc
deriving DecidableEq

/-- Outcomes that fall through to the retry logic: neither a 201 nor a
403 response. -/
def retriableOutcome : AttemptOutcome → Bool
  | .httpOther => true
  | .exc => true
  | _ => false

/-- Observable result of `create_review_issue`: the returned boolean,
whether the fallback console block (which contains the full
`review_content`) was printed, and the sleeps performed. -/
structure PublishResult where
  success : Bool
  fallback : Bool
  sleeps : List Nat
deriving DecidableEq

/-- `max_retries = 3` in the source. -/
def maxRetries : Nat := 3

/-- The `for attempt in range(max_retries)` loop of `create_review_issue`.
`fuel` is the number of remaining iterations (`maxRetries - attempt`);
`sleeps` accumulates executed backoff delays in reverse. A 201 returns
True at once; a 403 prints diagnostics and returns False at once (no
fallback dump); any other status or an exception sleeps `2 ** attempt`
when further attempts remain, then continues. When the loop exhausts,
the fallback console block is printed and False is returned. -/
def publishAttempts (o : Nat → AttemptOutcome) :
    Nat → Nat → List Nat → PublishResult
  | 0, _, sleeps => ⟨false, true, sleeps.reverse⟩
  | fuel + 1, attempt, sleeps =>
    match o attempt with
    | .created => ⟨true, false, sleeps.reverse⟩
    | .forbidden => ⟨false, false, sleeps.reverse⟩
    | .httpOther =>
      if attempt < maxRetries - 1 then
        publishAttempts o fuel (attempt + 1) (2 ^ attempt :: sleeps)
      else
        publishAttempts o fuel (attempt + 1) sleeps
    | .exc =>
      if attempt < maxRetries - 1 then
        publishAttempts o fuel (attempt + 1) (2 ^ attempt :: sleeps)
      else
        publishAttempts o fuel (attempt + 1) sleeps

/-- `create_review_issue`, starting at attempt 0 with no sleeps done. -/
def createReviewIssue (o : Nat → AttemptOutcome) : PublishResult :=
  publishAttempts o maxRetries 0 []

/-! ### Chunked partitioning (`review_large_diff_in_chunks`)

The grouping loop iterates over `diff_content.split(chr(10))` and starts a
new segment at every line beginning with the file-boundary marker
`diff --git`. The source stores each finished segment as
`(current_file, chr(10).join(current_diff))`; we keep the line list of a
segment (the joined form is recovered by `joinLines`), which carries the
same information because split lines contain no newline. -/

/-- A line that opens a new per-file section of a unified diff. -/
def isDiffHeader (line : String) : Bool :=
  strStartsWith line "diff --git"

/-- The destination filename of a marker line:
`line.split(" b/")[-1] if " b/" in line else "unknown"`. The separator
cannot overlap itself, so the last component of the Python split is the
suffix after the last occurrence. -/
def parseDiffFilename (line : String) : String :=
  match afterLast (" b/".data) line.data with
  | some rest => ⟨rest⟩
  | none => "unknown"

/-- The guarded append `if current_file and current_diff:
file_diffs.append(...)`: an unset filename (`None`), an empty parsed
filename, or an empty line buffer are all falsy and emit nothing. -/
def flushSegment (cf : Option String) (cd : List String) :
    List (String × List String) :=
  match cf with
  | none => []
  | some f => if f = "" ∨ cd = [] then [] else [(f, cd)]

/-- The grouping loop itself: state is the pending filename and line
buffer; a marker line flushes the pending segment and opens a new one
seeded with the marker line, any other line is buffered; the end of input
flushes the final segment. -/
def groupDiffAux (cf : Option String) (cd : List String) :
    List String → List (String × List String)
  | [] => flushSegment cf cd
  | line :: rest =>
    if isDiffHeader line then
      flushSegment cf cd ++
        groupDiffAux (some (parseDiffFilename line)) [line] rest
    else
      groupDiffAux cf (cd ++ [line]) rest

/-- Per-file segments of a line list, as built by the source loop
(initial state: no filename, empty buffer). -/
def groupDiffLines (lines : List String) : List (String × List String) :=
  groupDiffAux none [] lines

/-- All lines covered by a segment list, in order. -/
def segLines : List (String × List String) → List String
  | [] => []
  | p :: ps => p.2 ++ segLines ps

/-- Python `chr(10).join(lines)`. -/
def joinLines : List String → String
  | [] => ""
  | [l] => l
  | l :: l2 :: ls => l ++ "\n" ++ joinLines (l2 :: ls)

/-! ### Important-file ranking -/

/-- The sort key of the chunked strategy:
`f.get(additions, 0) + f.get(deletions, 0)`. -/
def churn (f : FileChange) : Nat := f.additions + f.deletions

/-- The ordering realised by `sorted(..., key=churn, reverse=True)`:
larger churn first. -/
def churnGE (a b : FileChange) : Prop := churn b ≤ churn a

instance : DecidableRel churnGE := fun _ _ => Nat.decLe _ _

instance : IsTotal FileChange churnGE :=
  ⟨fun a b => Nat.le_total (churn b) (churn a)⟩

instance : IsTrans FileChange churnGE :=
  ⟨fun _ _ _ hab hbc => le_trans hbc hab⟩

/-- `sorted(files_changed, key=lambda f: additions + deletions,
reverse=True)[:ReviewConfig.MAX_FILES_DETAIL]`. Python sorted is stable,
and a stable sort is uniquely determined by its comparator, so the
stable insertion sort produces the identical list. -/
def importantFiles (files : List FileChange) (k : Nat) : List FileChange :=
  (List.insertionSort churnGE files).take k

/-! ### Review Strategist pipeline (`review_single_commit` and the two
strategies)

The LLM Gateway is the external collaborator `llm : Prompt → Except
String String`: prompt in, text out, or a typed `LLMAPIError` carrying a
message (`call_llm_api` wraps every failure mode into that one typed
error). A `Prompt` records the structured data the prompt templates embed
(the template literal text itself is fixed boilerplate that no component
inspects). `LLMAPIError` propagation through the strategies is the
`Except` monad; the per-file thread pool of the source is drained
sequentially here, which preserves its failure semantics: the first
`future.result()` that raises aborts the whole chunked review and all
collected results are discarded. -/

/-- Structured content of the three prompt templates. -/
inductive Prompt
  | fullReview (diffSlice : String) (truncated : Bool) (info : CommitInfo)
  | overview (info : CommitInfo) (fileCount totalAdd totalDel : Nat)
  | singleFile (filename : String) (fileDiff : String)
      (additions deletions : Nat)

/-- `sum(f.get(additions, 0) for f in files_changed)`. -/
def totalAdditions (files : List FileChange) : Nat :=
  files.foldr (fun f acc => f.additions + acc) 0

/-- `sum(f.get(deletions, 0) for f in files_changed)`. -/
def totalDeletions (files : List FileChange) : Nat :=
  files.foldr (fun f acc => f.deletions + acc) 0

/-- `generate_review_prompt`: embeds at most `max_diff_size` characters
of the diff and notes the truncation when the diff is longer. -/
def generateReviewPrompt (cfg : ReviewCfg) (diff : String)
    (info : CommitInfo) : Prompt :=
  let maxDiffSize := min diff.length cfg.maxDiffSize
  .fullReview (pyTakeStr maxDiffSize diff)
    (decide (diff.length > maxDiffSize)) info

/-- `review_code_with_llm`: one gateway call on the full-review prompt. -/
def reviewCodeWithLLM (llm : Prompt → Except String String)
    (cfg : ReviewCfg) (diff : String) (info : CommitInfo) :
    Except String String :=
  llm (generateReviewPrompt cfg diff info)

/-- The `(current_file, chr(10).join(current_diff))` pairs of the
grouping loop. -/
def groupDiffStr (diff : String) : List (String × String) :=
  (groupDiffLines (pySplitLines diff)).map (fun p => (p.1, joinLines p.2))

/-- The segment lookup of `review_single_file`: first pair whose filename
matches, its diff truncated to 50000 characters (`fdiff[:50000]`). -/
def findFileDiff : List (String × String) → String → Option String
  | [], _ => none
  | (fname, fdiff) :: rest, filename =>
    if fname = filename then some (pyTakeStr 50000 fdiff)
    else findFileDiff rest filename

/-- `review_single_file`: no matching segment returns `None` (the file is
silently skipped); otherwise one gateway call on the single-file prompt,
labelled by filename. -/
def reviewSingleFile (llm : Prompt → Except String String)
    (fileDiffs : List (String × String)) (f : FileChange) :
    Except String (Option String) :=
  match findFileDiff fileDiffs f.filename with
  | none => .ok none
  | some fd =>
    match llm (.singleFile f.filename fd f.additions f.deletions) with
    | .error e => .error e
    | .ok r => .ok (some ("### " ++ f.filename ++ "\n" ++ r))

/-- Draining the per-file reviews: collect the non-`None` results; the
first raised `LLMAPIError` aborts and discards everything collected. -/
def collectFileReviews (llm : Prompt → Except String String)
    (fileDiffs : List (String × String)) :
    List FileChange → Except String (List String)
  | [] => .ok []
  | f :: rest =>
    match reviewSingleFile llm fileDiffs f with
    | .error e => .error e
    | .ok none => collectFileReviews llm fileDiffs rest
    | .ok (some r) =>
      match collectFileReviews llm fileDiffs rest with
      | .error e => .error e
      | .ok rs => .ok (r :: rs)

/-- `review_large_diff_in_chunks`: one overview gateway call, then the
bounded per-file detail reviews of the highest-churn files, assembled
with the fixed section headers and summary block. -/
def reviewLargeDiffInChunks (llm : Prompt → Except String String)
    (cfg : ReviewCfg) (diff : String) (info : CommitInfo) :
    Except String String :=
  let fileDiffs := groupDiffStr diff
  match llm (.overview info info.files.length (totalAdditions info.files)
      (totalDeletions info.files)) with
  | .error e => .error e
  | .ok overviewText =>
    match collectFileReviews llm fileDiffs
        (importantFiles info.files cfg.maxFilesDetail) with
    | .error e => .error e
    | .ok reviews =>
      .ok ("## Large-Scale Change Analysis\n\n" ++ overviewText ++
        "\n\n## Detailed File Reviews\n\n" ++ joinLines reviews ++
        "\n\n## Summary and Recommendations\n")

/-- The strategy dispatch inside the `try` block of
`review_single_commit`. -/
def reviewPipeline (llm : Prompt → Except String String)
    (cfg : ReviewCfg) (diff : String) (info : CommitInfo) :
    Except String String :=
  match selectStrategy cfg diff with
  | .Chunked => reviewLargeDiffInChunks llm cfg diff info
  | .Full => reviewCodeWithLLM llm cfg diff info

/-- Observable outcome of `review_single_commit`: the returned boolean
and the report handed to `create_review_issue`, when it was invoked. -/
structure CommitReviewOutcome where
  success : Bool
  publishedReport : Option String
deriving DecidableEq

/-- `review_single_commit` after commit identity is fixed: metadata and
diff arrive from the Diff Source (`none` models a failed fetch, and an
empty diff is falsy in Python), the skip policy may end the review early
with success, an `LLMAPIError` from either strategy returns failure
without invoking the Publisher, and otherwise the assembled report is
published and the Publisher verdict is returned. -/
def reviewSingleCommit (llm : Prompt → Except String String)
    (cfg : ReviewCfg) (infoOpt : Option CommitInfo)
    (diffOpt : Option String) (publishOk : String → Bool) :
    CommitReviewOutcome :=
  match infoOpt with
  | none => ⟨false, none⟩
  | some info =>
    if shouldSkipReview cfg info then ⟨true, none⟩
    else
      match diffOpt with
      | none => ⟨false, none⟩
      | some diff =>
        if diff = "" then ⟨false, none⟩
        else
          match reviewPipeline llm cfg diff info with
          | .error _ => ⟨false, none⟩
          | .ok report => ⟨publishOk report, some report⟩

end AICodeReview

namespace AICodeReview

/-! ### Helper lemmas -/

theorem onlyIgnoredFiles_eq_all (cfg : ReviewCfg) :
    ∀ l : List FileChange,
      onlyIgnoredFiles cfg l = l.all (fun fc => fileIsIgnored cfg fc.filename)
  | [] => rfl
  | fc :: rest => by
    have ih := onlyIgnoredFiles_eq_all cfg rest
    by_cases hext : cfg.ignoredExtensions.any (fun ext => strEndsWith fc.filename ext)
    · simp [onlyIgnoredFiles, hext, fileIsIgnored, ih]
    · by_cases hpat : cfg.ignoredPaths.any (fun pat => strContains fc.filename pat)
      · simp [onlyIgnoredFiles, hext, hpat, fileIsIgnored, ih]
      · simp [onlyIgnoredFiles, hext, hpat, fileIsIgnored]

/-! ### Claim theorems: strategy selection, skip policy, dedup -/

/-- C1: the Review Strategist selects Full when the diff length is at most
`large_diff_threshold` (in particular exactly at the threshold) and
Chunked when it is strictly greater. -/
theorem selectStrategy_threshold (cfg : ReviewCfg) (diff : String) :
    (diff.length ≤ cfg.largeDiffThreshold → selectStrategy cfg diff = .Full) ∧
    (cfg.largeDiffThreshold < diff.length → selectStrategy cfg diff = .Chunked) ∧
    (diff.length = cfg.largeDiffThreshold → selectStrategy cfg diff = .Full) := by
  refine ⟨fun h => ?_, fun h => ?_, fun h => ?_⟩
  · simp [selectStrategy, Nat.not_lt.mpr h]
  · simp [selectStrategy, h]
  · simp [selectStrategy, h]

/-- Witness for C1 at a concrete threshold of 5: a 5-character diff is
reviewed with the Full strategy, a 6-character diff with Chunked. -/
theorem selectStrategy_threshold_witness :
    ("abcde".length = 5 ∧
      selectStrategy ⟨10000, 5, 1000, 3, 800, "en", [], []⟩ "abcde" = .Full) ∧
    (5 < "abcdef".length ∧
      selectStrategy ⟨10000, 5, 1000, 3, 800, "en", [], []⟩ "abcdef" = .Chunked) :=
  ⟨⟨by decide, (selectStrategy_threshold ⟨10000, 5, 1000, 3, 800, "en", [], []⟩ "abcde").2.2
      (by decide)⟩,
   ⟨by decide, (selectStrategy_threshold ⟨10000, 5, 1000, 3, 800, "en", [], []⟩ "abcdef").2.1
      (by decide)⟩⟩

/-- C6: a commit with more than one parent (a merge commit) is always
skipped, regardless of its file changes. -/
theorem mergeCommit_skipped (cfg : ReviewCfg) (info : CommitInfo)
    (h : info.parents.length > 1) :
    shouldSkipReview cfg info = true := by
  simp [shouldSkipReview, h]

/-- Witness for C6: a two-parent commit touching a code file is skipped. -/
theorem mergeCommit_skipped_witness :
    ([ "p1", "p2" ] : List String).length > 1 ∧
    shouldSkipReview ⟨10000, 5, 1000, 3, 800, "en", [".md"], ["docs/"]⟩
      ⟨["p1", "p2"], [⟨"src/main.py", 10, 2⟩], "a", "m", "d"⟩ = true :=
  ⟨by decide,
   mergeCommit_skipped ⟨10000, 5, 1000, 3, 800, "en", [".md"], ["docs/"]⟩
     ⟨["p1", "p2"], [⟨"src/main.py", 10, 2⟩], "a", "m", "d"⟩ (by decide)⟩

/-- C7: a non-merge commit in which every changed path matches an ignored
extension or an ignored path substring is skipped, and appending one file
matching neither rule flips the decision to not-skip. -/
theorem onlyIgnored_skipped (cfg : ReviewCfg) (info : CommitInfo)
    (hm : info.parents.length ≤ 1)
    (hall : ∀ fc ∈ info.files, fileIsIgnored cfg fc.filename = true) :
    shouldSkipReview cfg info = true ∧
    ∀ fc : FileChange, fileIsIgnored cfg fc.filename = false →
      shouldSkipReview cfg { info with files := info.files ++ [fc] } = false := by
  have hnm : ¬ info.parents.length > 1 := by omega
  constructor
  · rw [shouldSkipReview, if_neg hnm, onlyIgnoredFiles_eq_all, List.all_eq_true]
    exact fun x hx => hall x hx
  · intro fc hfc
    rw [shouldSkipReview, if_neg hnm, onlyIgnoredFiles_eq_all, List.all_append]
    simp [hfc]

/-- Witness for C7: a commit touching only `README.md` and `docs/guide.py`
is skipped under ignored extension `.md` and ignored path `docs/`; adding
`src/main.py` makes it reviewed. -/
theorem onlyIgnored_skipped_witness :
    (([⟨"README.md", 1, 1⟩, ⟨"docs/guide.py", 2, 0⟩] : List FileChange).length = 2 ∧
      shouldSkipReview ⟨10000, 5, 1000, 3, 800, "en", [".md"], ["docs/"]⟩
        ⟨["p1"], [⟨"README.md", 1, 1⟩, ⟨"docs/guide.py", 2, 0⟩], "a", "m", "d"⟩ = true) ∧
    shouldSkipReview ⟨10000, 5, 1000, 3, 800, "en", [".md"], ["docs/"]⟩
      ⟨["p1"], [⟨"README.md", 1, 1⟩, ⟨"docs/guide.py", 2, 0⟩, ⟨"src/main.py", 10, 2⟩],
       "a", "m", "d"⟩ = false := by
  have h := onlyIgnored_skipped ⟨10000, 5, 1000, 3, 800, "en", [".md"], ["docs/"]⟩
    ⟨["p1"], [⟨"README.md", 1, 1⟩, ⟨"docs/guide.py", 2, 0⟩], "a", "m", "d"⟩
    (by decide) (by decide)
  exact ⟨⟨by decide, h.1⟩, h.2 ⟨"src/main.py", 10, 2⟩ (by decide)⟩

/-- C10: a non-merge commit reporting no file changes at all is skipped
(the per-file loop never runs and the policy falls through to skip). -/
theorem emptyFiles_skipped (cfg : ReviewCfg) (info : CommitInfo)
    (h1 : info.parents.length ≤ 1) (h2 : info.files = []) :
    shouldSkipReview cfg info = true := by
  have hnm : ¬ info.parents.length > 1 := by omega
  simp [shouldSkipReview, hnm, h2, onlyIgnoredFiles]

/-- Witness for C10: a one-parent commit with an empty file list is
skipped even though no exclusion rule matched anything. -/
theorem emptyFiles_skipped_witness :
    ([ "p1" ] : List String).length ≤ 1 ∧
    shouldSkipReview ⟨10000, 5, 1000, 3, 800, "en", [".md"], ["docs/"]⟩
      ⟨["p1"], [], "a", "m", "d"⟩ = true :=
  ⟨by decide,
   emptyFiles_skipped ⟨10000, 5, 1000, 3, 800, "en", [".md"], ["docs/"]⟩
     ⟨["p1"], [], "a", "m", "d"⟩ (by decide) rfl⟩

/-- C8: the Dedup Checker returns false on any non-200 response and on any
transport error (fail-open), and on a 200 response returns true exactly
when the reported match count is positive. -/
theorem hasBeenReviewed_failOpen (status totalCount : Nat) (msg : String)
    (h : status ≠ 200) :
    hasBeenReviewed (.response status totalCount) = false ∧
    hasBeenReviewed (.transportError msg) = false ∧
    (hasBeenReviewed (.response 200 totalCount) = true ↔ 0 < totalCount) := by
  refine ⟨?_, rfl, ?_⟩
  · simp [hasBeenReviewed, h]
  · simp [hasBeenReviewed]

/-- Witness for C8: a 500 response and a timeout both yield not-reviewed;
a 200 response with 7 matches yields already-reviewed. -/
theorem hasBeenReviewed_failOpen_witness :
    (500 ≠ 200) ∧
    hasBeenReviewed (.response 500 7) = false ∧
    hasBeenReviewed (.transportError "timeout") = false ∧
    (hasBeenReviewed (.response 200 7) = true ↔ 0 < 7) :=
  ⟨by decide, hasBeenReviewed_failOpen 500 7 "timeout" (by decide)⟩

/-! ### Claim theorems: chunked partitioning -/

theorem segLines_append :
    ∀ a b : List (String × List String),
      segLines (a ++ b) = segLines a ++ segLines b
  | [], _ => rfl
  | p :: ps, b => by simp [segLines, segLines_append ps b]

/-- Inside a section (a filename is pending and the buffer is nonempty),
the grouping loop eventually emits every buffered and remaining line
exactly once, provided every further marker parses to a nonempty
filename. -/
theorem groupDiffAux_covers :
    ∀ (rest : List String) (f : String) (cd : List String),
      f ≠ "" → cd ≠ [] →
      (∀ l ∈ rest, isDiffHeader l = true → parseDiffFilename l ≠ "") →
      segLines (groupDiffAux (some f) cd rest) = cd ++ rest
  | [], f, cd, hf, hcd, _ => by
    simp [groupDiffAux, flushSegment, hf, hcd, segLines]
  | line :: rest, f, cd, hf, hcd, hrest => by
    by_cases hmark : isDiffHeader line
    · have hparse : parseDiffFilename line ≠ "" :=
        hrest line (List.mem_cons_self _ _) hmark
      have ih := groupDiffAux_covers rest (parseDiffFilename line) [line]
        hparse (by simp) (fun l hl => hrest l (List.mem_cons_of_mem _ hl))
      simp [groupDiffAux, hmark, segLines_append, flushSegment, hf, hcd,
        segLines, ih]
    · have ih := groupDiffAux_covers rest f (cd ++ [line]) hf (by simp)
        (fun l hl => hrest l (List.mem_cons_of_mem _ hl))
      simp [groupDiffAux, hmark, ih]

/-- C2 (amended): when the diff text begins with a file-boundary marker
line and every marker line parses to a nonempty destination filename,
the per-file segments cover the original diff exactly: concatenating the
lines of all segments, in order, yields every original line (marker lines
included) exactly once. Without the leading marker, the lines before the
first marker — or the entire text when no marker occurs — are dropped. -/
theorem chunkPartition_lossless (diff : String)
    (h1 : isDiffHeader ((pySplitLines diff).headI) = true)
    (h2 : ∀ l ∈ pySplitLines diff,
      isDiffHeader l = true → parseDiffFilename l ≠ "") :
    segLines (groupDiffLines (pySplitLines diff)) = pySplitLines diff := by
  cases hl : pySplitLines diff with
  | nil => rw [hl] at h1; exact absurd h1 (by decide)
  | cons first rest =>
    rw [hl] at h1 h2
    simp only [List.headI] at h1
    have hparse : parseDiffFilename first ≠ "" :=
      h2 first (List.mem_cons_self _ _) h1
    have hcov := groupDiffAux_covers rest (parseDiffFilename first) [first]
      hparse (by simp) (fun l hl' hm => h2 l (List.mem_cons_of_mem _ hl') hm)
    simp [groupDiffLines, groupDiffAux, h1, flushSegment, hcov]

/-- C2 counterexample: on the diff text `hello` (no marker line at all)
the grouping loop emits no segment, so the single non-marker line is
dropped and the partition is not a lossless cover as claimed. -/
theorem chunkPartition_counterexample :
    segLines (groupDiffLines (pySplitLines "hello")) = [] ∧
    pySplitLines "hello" = ["hello"] ∧
    isDiffHeader "hello" = false := by
  decide

/-- Witness for C2 (amended) on a two-file diff: the segment lines
reconstruct the split diff exactly. -/
theorem chunkPartition_lossless_witness :
    isDiffHeader
      ((pySplitLines
        "diff --git a/f.py b/f.py\n+pass\ndiff --git a/g.py b/g.py\n-x").headI)
      = true ∧
    segLines (groupDiffLines (pySplitLines
        "diff --git a/f.py b/f.py\n+pass\ndiff --git a/g.py b/g.py\n-x")) =
      pySplitLines
        "diff --git a/f.py b/f.py\n+pass\ndiff --git a/g.py b/g.py\n-x" :=
  ⟨by decide,
   chunkPartition_lossless
     "diff --git a/f.py b/f.py\n+pass\ndiff --git a/g.py b/g.py\n-x"
     (by decide) (by decide)⟩

/-! ### Claim theorems: Publisher retry and fallback -/

theorem retriableOutcome_cases {x : AttemptOutcome}
    (h : retriableOutcome x = true) :
    x = .httpOther ∨ x = .exc := by
  cases x <;> simp_all [retriableOutcome]

/-- C3: when the first two attempts fail with retriable (non-403,
non-created) outcomes, a created third attempt yields success with no
fallback console output, a retriable third attempt yields failure with
the fallback console dump, and in both runs the executed backoff delays
double: 2 to the 0, then 2 to the 1. -/
theorem createReviewIssue_retry (o : Nat → AttemptOutcome)
    (h0 : retriableOutcome (o 0) = true)
    (h1 : retriableOutcome (o 1) = true) :
    (o 2 = .created → createReviewIssue o = ⟨true, false, [2 ^ 0, 2 ^ 1]⟩) ∧
    (retriableOutcome (o 2) = true →
      createReviewIssue o = ⟨false, true, [2 ^ 0, 2 ^ 1]⟩) := by
  rcases retriableOutcome_cases h0 with hx0 | hx0 <;>
    rcases retriableOutcome_cases h1 with hx1 | hx1 <;>
    refine ⟨fun h2 => ?_, fun h2 => ?_⟩ <;>
    [skip; rcases retriableOutcome_cases h2 with hx2 | hx2;
     skip; rcases retriableOutcome_cases h2 with hx2 | hx2;
     skip; rcases retriableOutcome_cases h2 with hx2 | hx2;
     skip; rcases retriableOutcome_cases h2 with hx2 | hx2] <;>
    simp_all [createReviewIssue, publishAttempts, maxRetries]

/-- Witness for C3 (success half): two retriable failures then a created
response give success, no fallback, and delays 1 then 2. -/
theorem createReviewIssue_retry_witness :
    createReviewIssue
      (fun n => match n with
        | 0 => AttemptOutcome.httpOther
        | 1 => AttemptOutcome.exc
        | _ => AttemptOutcome.created) = ⟨true, false, [2 ^ 0, 2 ^ 1]⟩ :=
  (createReviewIssue_retry
      (fun n => match n with
        | 0 => AttemptOutcome.httpOther
        | 1 => AttemptOutcome.exc
        | _ => AttemptOutcome.created) rfl rfl).1 rfl

/-- C4 counterexample: a 403 on the first attempt makes
`create_review_issue` return failure without ever printing the fallback
console block, so the review content is lost from the process output,
contradicting the claim that every failure emits the report. -/
theorem createReviewIssue_forbidden_counterexample :
    (createReviewIssue (fun _ => AttemptOutcome.forbidden)).success = false ∧
    (createReviewIssue (fun _ => AttemptOutcome.forbidden)).fallback = false := by
  decide

/-- C4 (amended): when no attempt returns a 403, a failing run of
`create_review_issue` has always printed the fallback console block
containing the full review content. -/
theorem createReviewIssue_failure_emits_report (o : Nat → AttemptOutcome)
    (hno403 : ∀ i, i < maxRetries → o i ≠ .forbidden)
    (hfail : (createReviewIssue o).success = false) :
    (createReviewIssue o).fallback = true := by
  have c0 := hno403 0 (by decide)
  have c1 := hno403 1 (by decide)
  have c2 := hno403 2 (by decide)
  cases hx0 : o 0 <;> cases hx1 : o 1 <;> cases hx2 : o 2 <;>
    simp_all [createReviewIssue, publishAttempts, maxRetries]

/-- Witness for C4 (amended): three exceptions in a row return failure
and print the fallback report dump. -/
theorem createReviewIssue_failure_emits_report_witness :
    (∀ i, i < maxRetries → (fun _ => AttemptOutcome.exc) i ≠ .forbidden) ∧
    (createReviewIssue (fun _ => AttemptOutcome.exc)).success = false ∧
    (createReviewIssue (fun _ => AttemptOutcome.exc)).fallback = true :=
  ⟨by decide, by decide,
   createReviewIssue_failure_emits_report (fun _ => AttemptOutcome.exc)
     (by decide) (by decide)⟩

/-! ### Claim theorems: important-file ranking -/

/-- C9: the important files are exactly a top-`max_files_detail`
selection by churn, descending: the selection plus some remainder is a
permutation of the input, the selection is sorted by descending churn,
it has length `min k n`, and every selected file has churn at least that
of every unselected file. On the churn profile [900, 50, 10, 5, 1] with
`max_files_detail = 3` the selection is exactly the three highest-churn
files in descending order. -/
theorem importantFiles_topChurn :
    (∀ (files : List FileChange) (k : Nat),
      ∃ rest : List FileChange,
        (importantFiles files k ++ rest).Perm files ∧
        List.Sorted churnGE (importantFiles files k) ∧
        (importantFiles files k).length = min k files.length ∧
        ∀ x ∈ importantFiles files k, ∀ y ∈ rest, churn y ≤ churn x) ∧
    importantFiles
      [⟨"a.py", 900, 0⟩, ⟨"b.py", 50, 0⟩, ⟨"c.py", 10, 0⟩,
       ⟨"d.py", 5, 0⟩, ⟨"e.py", 1, 0⟩] 3 =
      [⟨"a.py", 900, 0⟩, ⟨"b.py", 50, 0⟩, ⟨"c.py", 10, 0⟩] := by
  constructor
  · intro files k
    refine ⟨(List.insertionSort churnGE files).drop k, ?_, ?_, ?_, ?_⟩
    · rw [importantFiles, List.take_append_drop]
      exact List.perm_insertionSort churnGE files
    · exact List.Pairwise.sublist (List.take_sublist _ _)
        (List.sorted_insertionSort churnGE files)
    · rw [importantFiles, List.length_take,
        (List.perm_insertionSort churnGE files).length_eq]
    · have hs := List.sorted_insertionSort churnGE files
      rw [← List.take_append_drop k (List.insertionSort churnGE files)] at hs
      exact fun x hx y hy => (List.pairwise_append.mp hs).2.2 x hx y hy
  · decide

/-- Witness for C9: the concrete ranking of the scenario from the spec. -/
theorem importantFiles_topChurn_witness :
    importantFiles
      [⟨"a.py", 900, 0⟩, ⟨"b.py", 50, 0⟩, ⟨"c.py", 10, 0⟩,
       ⟨"d.py", 5, 0⟩, ⟨"e.py", 1, 0⟩] 3 =
      [⟨"a.py", 900, 0⟩, ⟨"b.py", 50, 0⟩, ⟨"c.py", 10, 0⟩] :=
  importantFiles_topChurn.2

/-! ### Claim theorems: LLM failure aborts the commit review -/

theorem collectFileReviews_ok_each (llm : Prompt → Except String String)
    (fileDiffs : List (String × String)) :
    ∀ (fs : List FileChange) (rs : List String),
      collectFileReviews llm fileDiffs fs = .ok rs →
      ∀ f ∈ fs, ∃ v, reviewSingleFile llm fileDiffs f = .ok v
  | [], _, _, f, hf => absurd hf (List.not_mem_nil f)
  | f0 :: rest, rs, h, f, hf => by
    rw [collectFileReviews] at h
    cases hsf : reviewSingleFile llm fileDiffs f0 with
    | error e => rw [hsf] at h; exact absurd h (by simp)
    | ok v =>
      rw [hsf] at h
      rcases List.mem_cons.mp hf with rfl | hmem
      · exact ⟨v, hsf⟩
      · cases v with
        | none => exact collectFileReviews_ok_each llm fileDiffs rest rs h f hmem
        | some r =>
          cases hcr : collectFileReviews llm fileDiffs rest with
          | error e => rw [hcr] at h; exact absurd h (by simp)
          | ok rs2 =>
            exact collectFileReviews_ok_each llm fileDiffs rest rs2 hcr f hmem

/-- C5: a typed LLM Gateway failure in either strategy makes
`review_single_commit` return failure with the Publisher never invoked
(first conjunct: no report, partial or otherwise, is published); and a
chunked review can only succeed when the overview call and every
per-file call with a matching segment succeeded, so partial chunked
results are never assembled into a published report (second conjunct). -/
theorem llmFailure_abortsCommit (llm : Prompt → Except String String)
    (cfg : ReviewCfg) (info : CommitInfo) (diff : String)
    (publishOk : String → Bool)
    (hskip : shouldSkipReview cfg info = false) :
    (∀ e, reviewPipeline llm cfg diff info = .error e →
      reviewSingleCommit llm cfg (some info) (some diff) publishOk =
        ⟨false, none⟩) ∧
    (∀ r, reviewLargeDiffInChunks llm cfg diff info = .ok r →
      (∃ t, llm (.overview info info.files.length
        (totalAdditions info.files) (totalDeletions info.files)) = .ok t) ∧
      ∀ f ∈ importantFiles info.files cfg.maxFilesDetail,
        ∃ v, reviewSingleFile llm (groupDiffStr diff) f = .ok v) := by
  constructor
  · intro e he
    by_cases hd : diff = ""
    · simp [reviewSingleCommit, hskip, hd]
    · simp [reviewSingleCommit, hskip, hd, he]
  · intro r hr
    simp only [reviewLargeDiffInChunks] at hr
    cases hov : llm (.overview info info.files.length
        (totalAdditions info.files) (totalDeletions info.files)) with
    | error e => rw [hov] at hr; exact absurd hr (by simp)
    | ok t =>
      rw [hov] at hr
      cases hcol : collectFileReviews llm (groupDiffStr diff)
          (importantFiles info.files cfg.maxFilesDetail) with
      | error e => rw [hcol] at hr; exact absurd hr (by simp)
      | ok rs =>
        exact ⟨⟨t, rfl⟩,
          fun f hf => collectFileReviews_ok_each llm (groupDiffStr diff)
            (importantFiles info.files cfg.maxFilesDetail) rs hcol f hf⟩

/-- Witness for C5: a gateway that always fails makes the driver return
failure with no publish attempt for a concrete reviewable commit. -/
theorem llmFailure_abortsCommit_witness :
    shouldSkipReview ⟨10000, 100, 1000, 3, 800, "en", [".md"], ["docs/"]⟩
      ⟨["p1"], [⟨"src/main.py", 10, 2⟩], "a", "m", "d"⟩ = false ∧
    reviewSingleCommit (fun _ => Except.error "LLM service error 500")
      ⟨10000, 100, 1000, 3, 800, "en", [".md"], ["docs/"]⟩
      (some ⟨["p1"], [⟨"src/main.py", 10, 2⟩], "a", "m", "d"⟩)
      (some "diff --git a/src/main.py b/src/main.py\n+x")
      (fun _ => true) = ⟨false, none⟩ :=
  ⟨by decide,
   (llmFailure_abortsCommit (fun _ => Except.error "LLM service error 500")
      ⟨10000, 100, 1000, 3, 800, "en", [".md"], ["docs/"]⟩
      ⟨["p1"], [⟨"src/main.py", 10, 2⟩], "a", "m", "d"⟩
      "diff --git a/src/main.py b/src/main.py\n+x"
      (fun _ => true) (by decide)).1 "LLM service error 500" rfl⟩

end AICodeReview
